import Mathlib

/-!
Verification of the dist-job-scheduler core against its specification.

The Go program stores jobs, job attempts and schedules in a relational
database; the store operations are single SQL statements (or one
transaction), so each is modelled as a pure function on an explicit store
state.  Rows are list elements; an SQL UPDATE with a WHERE clause is a map
over the list; ORDER BY / LIMIT selection is an insertion sort followed by
a take.  Timestamps are integers (nanoseconds since the epoch, mirroring
the resolution of Go time.Time); NOW() is passed in explicitly.  Random
jitter is passed in as an oracle value together with its range constraint.
-/

namespace JobSched

/-- Time instants: nanoseconds since the Unix epoch (Go `time.Time` resolution). -/
abbrev Time := Int

/-- Store-assigned job id (opaque, totally ordered; TEXT primary key in the schema). -/
abbrev JobId := Nat

/-- Job status column values, from internal/domain: pending, running, completed,
failed, cancelled. -/
inductive Status where
  | pending
  | running
  | completed
  | failed
  | cancelled
deriving DecidableEq

/-- Statuses the spec calls terminal. -/
def Status.isTerminal : Status → Bool
  | .completed => true
  | .failed => true
  | .cancelled => true
  | _ => false

/-- domain.BackoffExponential (internal/domain, current revision used by the
worker and the usecase layer). -/
def BackoffExponential : String := "exponential"

/-- domain.BackoffLinear. -/
def BackoffLinear : String := "linear"

/-- One row of the jobs table (domain.Job / the jobs schema). -/
structure Job where
  id : JobId
  user_id : String
  idempotency_key : String
  url : String
  method : String
  headers : List (String × String)
  body : Option String
  timeout_seconds : Int
  status : Status
  scheduled_at : Time
  retry_count : Int
  max_retries : Int
  backoff : String
  claimed_at : Option Time
  claimed_by : Option String
  heartbeat_at : Option Time
  completed_at : Option Time
  last_error : Option String
  schedule_id : Option String
  created_at : Time
  updated_at : Time
deriving DecidableEq

/-- The jobs table. -/
structure Store where
  jobs : List Job
deriving DecidableEq

/-- Well-formedness of the table: the primary key is unique. -/
def Store.wf (s : Store) : Prop := (s.jobs.map Job.id).Nodup

instance (s : Store) : Decidable s.wf := by unfold Store.wf; infer_instance

/-! ### JobRepository (postgres) single-row mutations -/

/-- Row update of JobRepository.Complete:
UPDATE jobs SET status = completed, completed_at = NOW(), updated_at = NOW()
WHERE id = $1   (no status guard in the source). -/
def completeRow (now : Time) (jobID : JobId) (j : Job) : Job :=
  if j.id = jobID then
    { j with status := Status.completed, completed_at := some now, updated_at := now }
  else j

/-- JobRepository.Complete. -/
def Complete (s : Store) (now : Time) (jobID : JobId) : Store :=
  { jobs := s.jobs.map (completeRow now jobID) }

/-- Row update of JobRepository.Fail:
UPDATE jobs SET status = failed, last_error = $2, updated_at = NOW() WHERE id = $1. -/
def failRow (now : Time) (jobID : JobId) (lastError : String) (j : Job) : Job :=
  if j.id = jobID then
    { j with status := Status.failed, last_error := some lastError, updated_at := now }
  else j

/-- JobRepository.Fail. -/
def Fail (s : Store) (now : Time) (jobID : JobId) (lastError : String) : Store :=
  { jobs := s.jobs.map (failRow now jobID lastError) }

/-- Row update of JobRepository.Reschedule:
UPDATE jobs SET status = pending, retry_count = retry_count + 1, last_error = $2,
scheduled_at = $3, claimed_at = NULL, claimed_by = NULL, heartbeat_at = NULL,
updated_at = NOW() WHERE id = $1. -/
def rescheduleRow (now : Time) (jobID : JobId) (lastError : String) (retryAt : Time)
    (j : Job) : Job :=
  if j.id = jobID then
    { j with status := Status.pending, retry_count := j.retry_count + 1,
             last_error := some lastError, scheduled_at := retryAt,
             claimed_at := none, claimed_by := none, heartbeat_at := none,
             updated_at := now }
  else j

/-- JobRepository.Reschedule. -/
def Reschedule (s : Store) (now : Time) (jobID : JobId) (lastError : String)
    (retryAt : Time) : Store :=
  { jobs := s.jobs.map (rescheduleRow now jobID lastError retryAt) }

/-- Row update of JobRepository.UpdateHeartbeat:
UPDATE jobs SET heartbeat_at = NOW(), updated_at = NOW()
WHERE id = $1 AND status = running. -/
def heartbeatRow (now : Time) (jobID : JobId) (j : Job) : Job :=
  if j.id = jobID ∧ j.status = Status.running then
    { j with heartbeat_at := some now, updated_at := now }
  else j

/-- JobRepository.UpdateHeartbeat. -/
def UpdateHeartbeat (s : Store) (now : Time) (jobID : JobId) : Store :=
  { jobs := s.jobs.map (heartbeatRow now jobID) }

/-! ### JobRepository.Claim -/

/-- The WHERE clause of the claim subselect: status = pending AND scheduled_at <= NOW(). -/
def isDue (now : Time) (j : Job) : Bool :=
  decide (j.status = Status.pending) && decide (j.scheduled_at ≤ now)

/-- ORDER BY scheduled_at ASC of the claim subselect. -/
def claimLE (a b : Job) : Prop := a.scheduled_at ≤ b.scheduled_at

instance : DecidableRel claimLE := fun a b => by unfold claimLE; infer_instance

instance : IsTotal Job claimLE := ⟨fun a b => Int.le_total a.scheduled_at b.scheduled_at⟩

instance : IsTrans Job claimLE := ⟨fun _ _ _ h h' => le_trans h h'⟩

/-- Ids picked by the claim subselect:
SELECT id FROM jobs WHERE status = pending AND scheduled_at <= NOW()
ORDER BY scheduled_at ASC LIMIT $2 FOR UPDATE SKIP LOCKED. -/
def claimSelected (s : Store) (now : Time) (limit : Nat) : List JobId :=
  ((((s.jobs.filter (isDue now)).insertionSort claimLE).take limit).map Job.id)

/-- Row update of JobRepository.Claim: SET status = running, claimed_at = NOW(),
claimed_by = $1, heartbeat_at = NOW(), updated_at = NOW(). -/
def claimRow (now : Time) (workerID : String) (ids : List JobId) (j : Job) : Job :=
  if j.id ∈ ids then
    { j with status := Status.running, claimed_at := some now,
             claimed_by := some workerID, heartbeat_at := some now, updated_at := now }
  else j

/-- JobRepository.Claim: updates the selected rows and returns them (RETURNING). -/
def Claim (s : Store) (now : Time) (workerID : String) (limit : Nat) :
    Store × List Job :=
  let ids := claimSelected s now limit
  let updated := s.jobs.map (claimRow now workerID ids)
  ({ jobs := updated }, updated.filter (fun j => decide (j.id ∈ ids)))

/-! ### Reaper bulk updates -/

/-- ORDER BY heartbeat_at ASC used by both stale subselects (a NULL-free order on
the selected rows; NULL heartbeats never satisfy heartbeat_at < cutoff). -/
def hbLE (a b : Job) : Prop :=
  match a.heartbeat_at, b.heartbeat_at with
  | none, _ => True
  | some _, none => False
  | some x, some y => x ≤ y

instance : DecidableRel hbLE := fun a b => by
  unfold hbLE
  rcases a.heartbeat_at with _ | x <;> rcases b.heartbeat_at with _ | y <;> infer_instance

/-- WHERE clause of RescheduleStale: status = running AND heartbeat_at < $1
AND retry_count < max_retries. -/
def isStaleRetryable (cutoff : Time) (j : Job) : Bool :=
  decide (j.status = Status.running) &&
    (match j.heartbeat_at with
      | some h => decide (h < cutoff)
      | none => false) &&
    decide (j.retry_count < j.max_retries)

/-- Ids picked by the RescheduleStale subselect (ORDER BY heartbeat_at ASC LIMIT $2). -/
def rescheduleStaleSelected (s : Store) (cutoff : Time) (limit : Nat) : List JobId :=
  ((((s.jobs.filter (isStaleRetryable cutoff)).insertionSort hbLE).take limit).map Job.id)

/-- Row update of RescheduleStale: SET status = pending, retry_count = retry_count + 1,
last_error = worker timeout, claimed_at = NULL, claimed_by = NULL, heartbeat_at = NULL,
updated_at = NOW()  (scheduled_at untouched). -/
def rescheduleStaleRow (now : Time) (ids : List JobId) (j : Job) : Job :=
  if j.id ∈ ids then
    { j with status := Status.pending, retry_count := j.retry_count + 1,
             last_error := some "worker timeout",
             claimed_at := none, claimed_by := none, heartbeat_at := none,
             updated_at := now }
  else j

/-- JobRepository.RescheduleStale; returns the new store and RowsAffected. -/
def RescheduleStale (s : Store) (now cutoff : Time) (limit : Nat) : Store × Nat :=
  let ids := rescheduleStaleSelected s cutoff limit
  ({ jobs := s.jobs.map (rescheduleStaleRow now ids) }, ids.length)

/-- WHERE clause of FailStale: status = running AND heartbeat_at < $1
AND retry_count >= max_retries. -/
def isStaleExhausted (cutoff : Time) (j : Job) : Bool :=
  decide (j.status = Status.running) &&
    (match j.heartbeat_at with
      | some h => decide (h < cutoff)
      | none => false) &&
    decide (j.max_retries ≤ j.retry_count)

/-- Ids picked by the FailStale subselect. -/
def failStaleSelected (s : Store) (cutoff : Time) (limit : Nat) : List JobId :=
  ((((s.jobs.filter (isStaleExhausted cutoff)).insertionSort hbLE).take limit).map Job.id)

/-- Row update of FailStale: SET status = failed,
last_error = worker timeout: max retries exceeded, updated_at = NOW()
(claim fields, scheduled_at and retry_count untouched). -/
def failStaleRow (now : Time) (ids : List JobId) (j : Job) : Job :=
  if j.id ∈ ids then
    { j with status := Status.failed,
             last_error := some "worker timeout: max retries exceeded",
             updated_at := now }
  else j

/-- JobRepository.FailStale; returns the new store and RowsAffected. -/
def FailStale (s : Store) (now cutoff : Time) (limit : Nat) : Store × Nat :=
  let ids := failStaleSelected s cutoff limit
  ({ jobs := s.jobs.map (failStaleRow now ids) }, ids.length)

/-! ### Worker: retry delay and per-job outcome classification -/

def nsPerSecond : Int := 1000000000

/-- base = 30 * time.Second. -/
def baseDelay : Int := 30 * nsPerSecond

/-- time.Hour. -/
def hourNs : Int := 3600 * nsPerSecond

/-- retryDelay from the worker.  The exponential branch computes
delay = min(base * 2^retryCount, 1h) and adds jitter
rand.Int63n(delay/2) - delay/4; the random draw is passed in as the oracle
value rand with its range constraint stated in the theorems.
(For retryCount in the accepted range [0, 20] the Go float64 computation of
base * 2^retryCount is exact, so integer arithmetic models it faithfully.) -/
def retryDelay (backoff : String) (retryCount : Int) (rand : Int) : Int :=
  if backoff = BackoffExponential then
    let delay := min (baseDelay * 2 ^ retryCount.toNat) hourNs
    let jitter := rand - delay / 4
    delay + jitter
  else if backoff = BackoffLinear then
    baseDelay * (retryCount + 1)
  else baseDelay

/-- The executor's ExecutionResult, as consumed by the worker's classification:
a transport error (if any) and the HTTP status code (0 when errored). -/
structure ExecResult where
  err : Option String
  statusCode : Int
deriving DecidableEq

/-- The worker's error text for a failed run: the transport error when there is
one, otherwise the unexpected-status message. -/
def runJobErrMsg (result : ExecResult) : String :=
  match result.err with
  | some e => e
  | none => "unexpected status code: " ++ toString result.statusCode

/-- Terminal store action chosen by one run of Worker.runJob. -/
inductive RunOutcome where
  | complete
  | reschedule (errMsg : String) (retryAt : Time)
  | fail (errMsg : String)
deriving DecidableEq

/-- The classification of Worker.runJob: success iff no transport error and
HTTP status exactly 200 (http.StatusOK); otherwise reschedule at
now + retryDelay(...) when retry_count < max_retries, else terminal Fail. -/
def runJobOutcome (job : Job) (result : ExecResult) (now : Time) (rand : Int) :
    RunOutcome :=
  if result.err = none ∧ result.statusCode = 200 then
    RunOutcome.complete
  else if job.retry_count < job.max_retries then
    RunOutcome.reschedule (runJobErrMsg result)
      (now + retryDelay job.backoff job.retry_count rand)
  else
    RunOutcome.fail (runJobErrMsg result)

/-! ### Use-case layer: CreateJob defaults, ListJobs pagination -/

/-- usecase.CreateJobInput. -/
structure CreateJobInput where
  user_id : String
  idempotency_key : String
  url : String
  method : String
  headers : Option (List (String × String))
  body : Option String
  timeout_seconds : Int
  scheduled_at : Time
  max_retries : Int
  backoff : String
deriving DecidableEq

/-- The default-application prelude of JobUsecase.CreateJob: nil headers become
an empty map, and the zero values 0 / 0 / empty-string become 30 / 3 /
exponential. -/
def applyCreateDefaults (input : CreateJobInput) : CreateJobInput :=
  { input with
    headers := some (input.headers.getD []),
    timeout_seconds := if input.timeout_seconds = 0 then 30 else input.timeout_seconds,
    max_retries := if input.max_retries = 0 then 3 else input.max_retries,
    backoff := if input.backoff = "" then BackoffExponential else input.backoff }

/-- JobUsecase.CreateJob: applies the defaults and builds the pending job row
that the repository inserts (id and created_at are store-assigned). -/
def CreateJob (input : CreateJobInput) (id : JobId) (now : Time) : Job :=
  let i := applyCreateDefaults input
  { id := id, user_id := i.user_id, idempotency_key := i.idempotency_key,
    url := i.url, method := i.method, headers := i.headers.getD [],
    body := i.body, timeout_seconds := i.timeout_seconds,
    status := Status.pending, scheduled_at := i.scheduled_at,
    retry_count := 0, max_retries := i.max_retries, backoff := i.backoff,
    claimed_at := none, claimed_by := none, heartbeat_at := none,
    completed_at := none, last_error := none, schedule_id := none,
    created_at := now, updated_at := now }

/-- ORDER BY (scheduled_at DESC, id DESC) of the list query: a comes no later
than b in the page order. -/
def listOrder (a b : Job) : Prop :=
  b.scheduled_at < a.scheduled_at ∨ (a.scheduled_at = b.scheduled_at ∧ b.id ≤ a.id)

instance : DecidableRel listOrder := fun a b => by unfold listOrder; infer_instance

/-- The cursor predicate of the repository list query:
(scheduled_at, id) < ($ct, $cid), SQL row order (lexicographic). -/
def cursorLT (ct : Time) (cid : JobId) (j : Job) : Bool :=
  decide (j.scheduled_at < ct) || (decide (j.scheduled_at = ct) && decide (j.id < cid))

/-- JobRepository.ListJobs: filter by user, optional status, optional cursor,
order by (scheduled_at DESC, id DESC), LIMIT. -/
def repoListJobs (s : Store) (userId : String) (status : Option Status)
    (cursor : Option (Time × JobId)) (limit : Nat) : List Job :=
  let rows := s.jobs.filter (fun j =>
    decide (j.user_id = userId) &&
    (match status with
      | some st => decide (j.status = st)
      | none => true) &&
    (match cursor with
      | some (ct, cid) => cursorLT ct cid j
      | none => true))
  (rows.insertionSort listOrder).take limit

/-- Result of JobUsecase.ListJobs.  The cursor codec (base64url of the
(scheduled_at, id) record) round-trips, so the cursor is modelled as the
decoded pair itself. -/
structure ListJobsResult where
  jobs : List Job
  nextCursor : Option (Time × JobId)
deriving DecidableEq

/-- The limit clamp of JobUsecase.ListJobs: nonpositive becomes 20, above 100
becomes 100. -/
def usecaseLimit (limit : Int) : Nat :=
  if limit ≤ 0 then 20 else if 100 < limit then 100 else limit.toNat

/-- JobUsecase.ListJobs: fetches limit+1 rows; when it gets all limit+1 it
returns the first limit rows and a cursor built from jobs[limit] (the extra
row beyond the returned page, named last in the source). -/
def ListJobs (s : Store) (userId : String) (status : Option Status)
    (cursor : Option (Time × JobId)) (limit : Int) : ListJobsResult :=
  let l := usecaseLimit limit
  let rows := repoListJobs s userId status cursor (l + 1)
  if rows.length = l + 1 then
    match rows.drop l with
    | last :: _ =>
        { jobs := rows.take l, nextCursor := some (last.scheduled_at, last.id) }
    | [] => { jobs := rows, nextCursor := none }
  else
    { jobs := rows, nextCursor := none }

/-! ### Cancel (spec-modelled) and its handler mapping -/

/-- Domain errors surfaced by cancel. -/
inductive CancelError where
  | jobNotFound
  | jobNotCancellable
deriving DecidableEq

/-- Modelled from the spec: JobRepository.Cancel.  The postgres implementation
of Cancel is absent from the source snapshot (only the interface declaration in
internal/repository/job.go and the handler mapping in the JobHandler are
present).  Per the spec: CancelJob(id, user_id) transitions pending to
cancelled; fails with JobNotCancellable if the status is not pending; a job
that does not exist for this caller is JobNotFound. -/
def Cancel (s : Store) (now : Time) (jobID : JobId) (userID : String) :
    Except CancelError Store :=
  match s.jobs.find? (fun j => decide (j.id = jobID) && decide (j.user_id = userID)) with
  | none => Except.error CancelError.jobNotFound
  | some j =>
      if j.status = Status.pending then
        Except.ok { jobs := s.jobs.map (fun k =>
          if k.id = jobID ∧ k.user_id = userID ∧ k.status = Status.pending then
            { k with status := Status.cancelled, updated_at := now }
          else k) }
      else Except.error CancelError.jobNotCancellable

/-- The HTTP status mapping of JobHandler.Cancel: success 204, ErrJobNotFound
404, ErrJobNotCancellable 409. -/
def cancelHandlerCode (res : Except CancelError Store) : Int :=
  match res with
  | Except.ok _ => 204
  | Except.error CancelError.jobNotFound => 404
  | Except.error CancelError.jobNotCancellable => 409

/-! ### Dispatcher: ScheduleRepository.ClaimAndFire -/

/-- One row of the schedules table (domain.Schedule). -/
structure Schedule where
  id : String
  user_id : String
  name : String
  cron_expr : String
  url : String
  method : String
  headers : List (String × String)
  body : Option String
  timeout_seconds : Int
  max_retries : Int
  backoff : String
  paused : Bool
  next_run_at : Time
  last_run_at : Option Time
  created_at : Time
  updated_at : Time
deriving DecidableEq

/-- Go time.Time.Unix(): whole seconds since the epoch (floor of nanoseconds
over 1e9; Go stores sec and 0 <= nsec < 1e9, so Unix is the floor division). -/
def unixSeconds (t : Time) : Int := Int.fdiv t 1000000000

/-- The idempotency key built by ClaimAndFire before the advance:
fmt.Sprintf("sched:%s:%d", s.ID, s.NextRunAt.Unix()). -/
def fireKey (s : Schedule) : String :=
  "sched:" ++ s.id ++ ":" ++ toString (unixSeconds s.next_run_at)

/-- WHERE next_run_at <= NOW() AND NOT paused. -/
def isDueSchedule (now : Time) (s : Schedule) : Bool :=
  decide (s.next_run_at ≤ now) && !s.paused

/-- ORDER BY next_run_at ASC. -/
def schedLE (a b : Schedule) : Prop := a.next_run_at ≤ b.next_run_at

instance : DecidableRel schedLE := fun a b => by unfold schedLE; infer_instance

/-- State threaded through one ClaimAndFire transaction: the schedules table,
the jobs table, and a fresh-id counter standing for gen_random_uuid. -/
structure FireState where
  schedules : List Schedule
  jobs : List Job
  nextId : JobId
deriving DecidableEq

/-- The unique-constraint check (user_id, idempotency_key) that makes the job
INSERT raise SQLSTATE 23505. -/
def hasDupKey (jobs : List Job) (userId key : String) : Bool :=
  jobs.any (fun j => decide (j.user_id = userId) && decide (j.idempotency_key = key))

/-- The pending job inserted for a fired schedule: request template copied from
the schedule, scheduled_at = NOW(), schedule_id set. -/
def fireJob (now : Time) (id : JobId) (s : Schedule) : Job :=
  { id := id, user_id := s.user_id, idempotency_key := fireKey s,
    url := s.url, method := s.method, headers := s.headers, body := s.body,
    timeout_seconds := s.timeout_seconds, status := Status.pending,
    scheduled_at := now, retry_count := 0, max_retries := s.max_retries,
    backoff := s.backoff, claimed_at := none, claimed_by := none,
    heartbeat_at := none, completed_at := none, last_error := none,
    schedule_id := some s.id, created_at := now, updated_at := now }

/-- The per-schedule body of the ClaimAndFire loop: compute the new
next_run_at from the claimed row, build the key from the old next_run_at,
insert the job unless the unique constraint fires (in which case the insert is
skipped), and advance next_run_at / stamp last_run_at in every case. -/
def fireOne (now : Time) (computeNext : Schedule → Time) (st : FireState)
    (s : Schedule) : FireState :=
  let next := computeNext s
  let key := fireKey s
  let dup := hasDupKey st.jobs s.user_id key
  { schedules := st.schedules.map (fun t =>
      if t.id = s.id then
        { t with next_run_at := next, last_run_at := some now, updated_at := now }
      else t),
    jobs := if dup then st.jobs else st.jobs ++ [fireJob now st.nextId s],
    nextId := if dup then st.nextId else st.nextId + 1 }

/-- The due-schedule claim of ClaimAndFire:
SELECT ... WHERE next_run_at <= NOW() AND NOT paused
ORDER BY next_run_at ASC LIMIT $1 FOR UPDATE SKIP LOCKED. -/
def dueSchedules (st : FireState) (now : Time) (limit : Nat) : List Schedule :=
  ((st.schedules.filter (isDueSchedule now)).insertionSort schedLE).take limit

/-- ScheduleRepository.ClaimAndFire: one transaction over the claimed rows. -/
def ClaimAndFire (st : FireState) (now : Time) (limit : Nat)
    (computeNext : Schedule → Time) : FireState :=
  (dueSchedules st now limit).foldl (fireOne now computeNext) st

/-! ### Concrete rows used by the witnesses and counterexamples -/

/-- A job row with the given id, status, fire time and retry counters; the
request fields are fixed representative values. -/
def mkJob (id : JobId) (st : Status) (sched : Time) (rc mr : Int) : Job :=
  { id := id, user_id := "u", idempotency_key := "k" ++ toString id,
    url := "http://example.com", method := "GET", headers := [], body := none,
    timeout_seconds := 30, status := st, scheduled_at := sched,
    retry_count := rc, max_retries := mr, backoff := "exponential",
    claimed_at := none, claimed_by := none, heartbeat_at := none,
    completed_at := none, last_error := none, schedule_id := none,
    created_at := 0, updated_at := 0 }

/-- A running job row with a heartbeat, for the reaper examples. -/
def mkRunningJob (id : JobId) (hb : Time) (rc mr : Int) : Job :=
  { mkJob id Status.running 0 rc mr with
    claimed_at := some 0, claimed_by := some "w0", heartbeat_at := some hb }

/-- Store with a single cancelled job (id 1). -/
def cancelledStore : Store := { jobs := [mkJob 1 Status.cancelled 0 0 3] }

/-- Store with one due pending job, one future pending job and one completed
job, for the claim witness. -/
def claimStore : Store :=
  { jobs := [mkJob 1 Status.pending 10 0 3, mkJob 2 Status.pending 500 0 3,
             mkJob 3 Status.completed 0 0 3] }

/-- Store with a stale retryable job, a stale exhausted job and a fresh
running job, for the reaper witness. -/
def reaperStore : Store :=
  { jobs := [mkRunningJob 1 5 0 3, mkRunningJob 2 5 3 3, mkRunningJob 3 900 0 3] }

/-- Three jobs of one user at distinct fire times, for the pagination
counterexample. -/
def listStore : Store :=
  { jobs := [mkJob 1 Status.pending 10 0 3, mkJob 3 Status.pending 30 0 3,
             mkJob 2 Status.pending 20 0 3] }

/-- A CreateJob input whose caller explicitly supplies max_retries = 0. -/
def zeroRetryInput : CreateJobInput :=
  { user_id := "u", idempotency_key := "k", url := "http://example.com",
    method := "GET", headers := none, body := none, timeout_seconds := 30,
    scheduled_at := 0, max_retries := 0, backoff := "linear" }

/-- An execution result with no transport error and HTTP status 201. -/
def result201 : ExecResult := { err := none, statusCode := 201 }

/-- A due, unpaused schedule. -/
def sched1 : Schedule :=
  { id := "s1", user_id := "u", name := "n", cron_expr := "* * * * *",
    url := "http://example.com", method := "POST", headers := [], body := none,
    timeout_seconds := 30, max_retries := 3, backoff := "exponential",
    paused := false, next_run_at := 5000000000, last_run_at := none,
    created_at := 0, updated_at := 0 }

/-- Fire state in which the job of sched1's current tick already exists, so
the insert raises the unique-constraint violation. -/
def dupFireState : FireState :=
  { schedules := [sched1],
    jobs := [{ mkJob 7 Status.pending 0 0 3 with idempotency_key := "sched:s1:5" }],
    nextId := 8 }

/-- A constant next-run computation for the dispatcher witness. -/
def constNext (next : Time) : Schedule → Time := fun _ => next

/-! ### Helper lemmas about the ORDER BY / LIMIT selection pattern -/

theorem mem_of_selected {α β : Type} {f : α → β} {p : α → Bool}
    {r : α → α → Prop} [DecidableRel r] {l : List α} {limit : Nat} {i : β}
    (h : i ∈ (((l.filter p).insertionSort r).take limit).map f) :
    ∃ a, a ∈ l ∧ f a = i ∧ p a = true := by
  obtain ⟨a, ha, rfl⟩ := List.mem_map.1 h
  have h1 : a ∈ (l.filter p).insertionSort r := List.mem_of_mem_take ha
  have h2 : a ∈ l.filter p := (List.mem_insertionSort r).1 h1
  exact ⟨a, (List.mem_filter.1 h2).1, rfl, (List.mem_filter.1 h2).2⟩

theorem selected_nodup {α β : Type} {f : α → β} {p : α → Bool}
    {r : α → α → Prop} [DecidableRel r] {l : List α}
    (h : (l.map f).Nodup) (limit : Nat) :
    ((((l.filter p).insertionSort r).take limit).map f).Nodup := by
  have h1 : ((l.filter p).map f).Nodup :=
    ((List.filter_sublist l).map f).nodup h
  have h2 : (((l.filter p).insertionSort r).map f).Nodup :=
    (((List.perm_insertionSort r (l.filter p)).map f).nodup_iff).2 h1
  rw [List.map_take]
  exact (List.take_sublist _ _).nodup h2

theorem selected_length {α β : Type} (f : α → β) {p : α → Bool}
    {r : α → α → Prop} [DecidableRel r] (l : List α) (limit : Nat) :
    ((((l.filter p).insertionSort r).take limit).map f).length
      = min limit (l.filter p).length := by
  simp [List.length_take, (List.perm_insertionSort r (l.filter p)).length_eq]

theorem row_eq_of_id_eq {s : Store} (hwf : s.wf) {a b : Job}
    (ha : a ∈ s.jobs) (hb : b ∈ s.jobs) (h : a.id = b.id) : a = b :=
  List.inj_on_of_nodup_map hwf ha hb h

theorem mem_map_of_fix {f : Job → Job} {l : List Job} {j : Job}
    (hj : j ∈ l) (h : f j = j) : j ∈ l.map f :=
  h ▸ List.mem_map_of_mem f hj

/-! ### C1: terminal absorption -/

/-- C1 counterexample: the claim says Complete applied to a cancelled job
leaves it cancelled (terminal statuses absorb every mutation).  In the source
Complete updates WHERE id = $1 with no status guard, so it moves the cancelled
job of this store to completed. -/
theorem complete_uncancels_cex :
    (mkJob 1 Status.cancelled 0 0 3).status = Status.cancelled ∧
    ((Complete cancelledStore 5 1).jobs.map Job.status) = [Status.completed] ∧
    ¬ ((Complete cancelledStore 5 1).jobs.map Job.status) = [Status.cancelled] := by
  decide

/-- C1 amended: terminal statuses are absorbing for the operations whose SQL
filters on status — Claim (pending only), UpdateHeartbeat (running only),
RescheduleStale and FailStale (running only) never touch a terminal job —
but Complete, Fail and Reschedule filter on id alone and do move a job out of
a terminal status (see the counterexample). -/
theorem terminal_absorbing_guarded (s : Store) (now cutoff : Time) (w : String)
    (limit : Nat) (jobID : JobId) (j : Job) (hwf : s.wf) (hj : j ∈ s.jobs)
    (hterm : j.status.isTerminal = true) :
    j ∈ (Claim s now w limit).1.jobs ∧
    j ∈ (UpdateHeartbeat s now jobID).jobs ∧
    j ∈ (RescheduleStale s now cutoff limit).1.jobs ∧
    j ∈ (FailStale s now cutoff limit).1.jobs := by
  have hnp : j.status ≠ Status.pending := by
    intro h; rw [h] at hterm; simp [Status.isTerminal] at hterm
  have hnr : j.status ≠ Status.running := by
    intro h; rw [h] at hterm; simp [Status.isTerminal] at hterm
  refine ⟨?_, ?_, ?_, ?_⟩
  · refine mem_map_of_fix hj ?_
    unfold claimRow
    rw [if_neg]
    intro hmem
    obtain ⟨a, ha, haid, hap⟩ := mem_of_selected (by simpa [claimSelected] using hmem)
    have : a = j := row_eq_of_id_eq hwf ha hj haid
    subst this
    simp [isDue] at hap
    exact hnp hap.1
  · refine mem_map_of_fix hj ?_
    unfold heartbeatRow
    rw [if_neg]
    rintro ⟨-, hrun⟩
    exact hnr hrun
  · refine mem_map_of_fix hj ?_
    unfold rescheduleStaleRow
    rw [if_neg]
    intro hmem
    obtain ⟨a, ha, haid, hap⟩ := mem_of_selected (by simpa [rescheduleStaleSelected] using hmem)
    have : a = j := row_eq_of_id_eq hwf ha hj haid
    subst this
    simp [isStaleRetryable] at hap
    exact hnr hap.1.1
  · refine mem_map_of_fix hj ?_
    unfold failStaleRow
    rw [if_neg]
    intro hmem
    obtain ⟨a, ha, haid, hap⟩ := mem_of_selected (by simpa [failStaleSelected] using hmem)
    have : a = j := row_eq_of_id_eq hwf ha hj haid
    subst this
    simp [isStaleExhausted] at hap
    exact hnr hap.1.1

/-- C1 amended, witnessed on a store holding a single cancelled job. -/
theorem terminal_absorbing_guarded_witness :
    mkJob 1 Status.cancelled 0 0 3 ∈ (Claim cancelledStore 9 "w" 5).1.jobs ∧
    mkJob 1 Status.cancelled 0 0 3 ∈ (UpdateHeartbeat cancelledStore 9 1).jobs ∧
    mkJob 1 Status.cancelled 0 0 3 ∈ (RescheduleStale cancelledStore 9 9 5).1.jobs ∧
    mkJob 1 Status.cancelled 0 0 3 ∈ (FailStale cancelledStore 9 9 5).1.jobs :=
  terminal_absorbing_guarded cancelledStore 9 9 "w" 5 1 (mkJob 1 Status.cancelled 0 0 3)
    (by decide) (by decide) (by decide)

/-! ### C8: CreateJob defaults -/

/-- C8 counterexample: the claim says an explicitly supplied max_retries = 0
survives CreateJob.  The source treats the zero value as absent
(if input.MaxRetries == 0 then 3), so the created job carries max_retries = 3. -/
theorem create_zero_max_retries_cex :
    zeroRetryInput.max_retries = 0 ∧
    (CreateJob zeroRetryInput 1 0).max_retries = 3 ∧
    ¬ (CreateJob zeroRetryInput 1 0).max_retries = 0 := by
  decide

/-- C8 amended: CreateJob applies the defaults 30 / 3 / exponential to any
field holding its zero value (0, 0, empty string), so an explicit
max_retries = 0 is indistinguishable from an absent one and is stored as 3;
nonzero supplied values are kept, and the job is created pending with
retry_count 0. -/
theorem create_job_defaults (input : CreateJobInput) (id : JobId) (now : Time) :
    (CreateJob input id now).max_retries
        = (if input.max_retries = 0 then 3 else input.max_retries) ∧
    (CreateJob input id now).timeout_seconds
        = (if input.timeout_seconds = 0 then 30 else input.timeout_seconds) ∧
    (CreateJob input id now).backoff
        = (if input.backoff = "" then BackoffExponential else input.backoff) ∧
    (CreateJob input id now).status = Status.pending ∧
    (CreateJob input id now).retry_count = 0 ∧
    (CreateJob input id now).user_id = input.user_id ∧
    (CreateJob input id now).idempotency_key = input.idempotency_key ∧
    (CreateJob input id now).scheduled_at = input.scheduled_at := by
  simp [CreateJob, applyCreateDefaults]

/-! ### C4: per-run outcome classification -/

/-- C4: a run is marked complete exactly when the executor reported no
transport error and HTTP status exactly 200; on any other outcome (transport
error, or any non-200 status, including other 2xx) the worker records the
error text and reschedules at now + retryDelay when retry_count < max_retries,
otherwise terminally fails the job. -/
theorem run_job_classification (job : Job) (result : ExecResult) (now : Time)
    (rand : Int) :
    (runJobOutcome job result now rand = RunOutcome.complete ↔
      result.err = none ∧ result.statusCode = 200) ∧
    (¬ (result.err = none ∧ result.statusCode = 200) →
      job.retry_count < job.max_retries →
      runJobOutcome job result now rand =
        RunOutcome.reschedule (runJobErrMsg result)
          (now + retryDelay job.backoff job.retry_count rand)) ∧
    (¬ (result.err = none ∧ result.statusCode = 200) →
      ¬ job.retry_count < job.max_retries →
      runJobOutcome job result now rand = RunOutcome.fail (runJobErrMsg result)) := by
  unfold runJobOutcome
  refine ⟨?_, ?_, ?_⟩
  · split_ifs with h1 h2 <;> simp_all
  · intro h1 h2
    rw [if_neg h1, if_pos h2]
  · intro h1 h2
    rw [if_neg h1, if_neg h2]

/-- C4 witnessed at HTTP status 201 with no transport error: not a success,
and with retries remaining the job is rescheduled with the unexpected-status
error text. -/
theorem run_job_classification_witness :
    runJobOutcome (mkJob 1 Status.running 0 0 3) result201 100 0 =
      RunOutcome.reschedule (runJobErrMsg result201)
        (100 + retryDelay (mkJob 1 Status.running 0 0 3).backoff
          (mkJob 1 Status.running 0 0 3).retry_count 0) :=
  (run_job_classification (mkJob 1 Status.running 0 0 3) result201 100 0).2.1
    (by decide) (by decide)

/-! ### C5: retry delay -/

/-- C5: for retry_count in [0, 20] and a random draw in the range the worker
samples from, the exponential delay is min(30s * 2^retry_count, 1h) plus a
jitter lying in [-delay/4, +delay/4]; the linear delay is 30s * (retry_count+1)
with no jitter; any other backoff value yields exactly 30s. -/
theorem retry_delay_spec (b : String) (rc r : Int)
    (hrc0 : 0 ≤ rc) (hrc20 : rc ≤ 20)
    (hr0 : 0 ≤ r)
    (hr1 : r < min (baseDelay * 2 ^ rc.toNat) hourNs / 2) :
    (∃ jitter,
        retryDelay BackoffExponential rc r
          = min (baseDelay * 2 ^ rc.toNat) hourNs + jitter ∧
        -(min (baseDelay * 2 ^ rc.toNat) hourNs / 4) ≤ jitter ∧
        jitter ≤ min (baseDelay * 2 ^ rc.toNat) hourNs / 4) ∧
    retryDelay BackoffLinear rc r = baseDelay * (rc + 1) ∧
    (b ≠ BackoffExponential → b ≠ BackoffLinear → retryDelay b rc r = baseDelay) := by
  have hd4 : ∃ k : Int, 0 ≤ k ∧ min (baseDelay * 2 ^ rc.toNat) hourNs = 4 * k := by
    refine ⟨min (7500000000 * 2 ^ rc.toNat) 900000000000, ?_, ?_⟩
    · have : (0:Int) ≤ 7500000000 * 2 ^ rc.toNat := by positivity
      exact le_min this (by norm_num)
    · have h1 : baseDelay * 2 ^ rc.toNat = 4 * (7500000000 * 2 ^ rc.toNat) := by
        rw [show baseDelay = 4 * 7500000000 by norm_num [baseDelay, nsPerSecond]]
        ring
      have h2 : hourNs = 4 * 900000000000 := by norm_num [hourNs, nsPerSecond]
      rw [h1, h2]
      rcases le_total ((7500000000:Int) * 2 ^ rc.toNat) 900000000000 with h | h
      · rw [min_eq_left (by linarith), min_eq_left h]
      · rw [min_eq_right (by linarith), min_eq_right h]
  obtain ⟨k, hk0, hk⟩ := hd4
  refine ⟨?_, ?_, ?_⟩
  · refine ⟨r - min (baseDelay * 2 ^ rc.toNat) hourNs / 4, ?_, ?_, ?_⟩
    · simp [retryDelay]
    · rw [hk] at hr1 ⊢
      omega
    · rw [hk] at hr1 ⊢
      omega
  · have hne : ¬ (BackoffLinear = BackoffExponential) := by decide
    rw [retryDelay, if_neg hne, if_pos rfl]
  · intro h1 h2
    rw [retryDelay, if_neg h1, if_neg h2]

/-- C5 witnessed at retry_count 2 with draw 1 and the unknown backoff
value other. -/
theorem retry_delay_spec_witness :
    retryDelay BackoffLinear 2 1 = baseDelay * (2 + 1) ∧
    retryDelay "other" 2 1 = baseDelay :=
  ⟨(retry_delay_spec "other" 2 1 (by decide) (by decide) (by decide) (by decide)).2.1,
   (retry_delay_spec "other" 2 1 (by decide) (by decide) (by decide)
      (by decide)).2.2 (by decide) (by decide)⟩

/-! ### C10: FailStale frame effect -/

/-- C10: FailStale touches only status, last_error and updated_at: every row
keeps its claimed_at, claimed_by, heartbeat_at, scheduled_at and retry_count,
and an affected row differs from its old value exactly by the terminal-failure
fields — unlike the Reschedule and RescheduleStale updates, which clear the
claim and heartbeat fields. -/
theorem fail_stale_frame (s : Store) (now cutoff : Time) (limit : Nat) (k : Nat) :
    (∀ pre post : Job,
      s.jobs[k]? = some pre →
      (FailStale s now cutoff limit).1.jobs[k]? = some post →
      post.claimed_at = pre.claimed_at ∧
      post.claimed_by = pre.claimed_by ∧
      post.heartbeat_at = pre.heartbeat_at ∧
      post.scheduled_at = pre.scheduled_at ∧
      post.retry_count = pre.retry_count ∧
      (post = pre ∨
        post = { pre with status := Status.failed,
                          last_error := some "worker timeout: max retries exceeded",
                          updated_at := now })) ∧
    (∀ (j : Job) (ids : List JobId) (e : String) (t : Time), j.id ∈ ids →
      (rescheduleStaleRow now ids j).claimed_at = none ∧
      (rescheduleStaleRow now ids j).claimed_by = none ∧
      (rescheduleStaleRow now ids j).heartbeat_at = none ∧
      (rescheduleRow now j.id e t j).claimed_at = none ∧
      (rescheduleRow now j.id e t j).claimed_by = none ∧
      (rescheduleRow now j.id e t j).heartbeat_at = none) := by
  constructor
  · intro pre post hpre hpost
    have hmap : (FailStale s now cutoff limit).1.jobs[k]?
        = (s.jobs[k]?).map (failStaleRow now (failStaleSelected s cutoff limit)) := by
      simp [FailStale]
    rw [hmap, hpre] at hpost
    have hpost2 : post = failStaleRow now (failStaleSelected s cutoff limit) pre := by
      simpa using hpost.symm
    subst hpost2
    unfold failStaleRow
    split_ifs <;> simp
  · intro j ids e t hj
    unfold rescheduleStaleRow rescheduleRow
    rw [if_pos hj, if_pos rfl]
    simp

/-- The row FailStale writes for the exhausted stale job of the reaper store. -/
def failedStaleRow2 : Job :=
  { mkRunningJob 2 5 3 3 with
    status := Status.failed,
    last_error := some "worker timeout: max retries exceeded", updated_at := 1000 }

/-- C10 witnessed on the reaper store: the exhausted stale job keeps its
claim fields after FailStale, while the reschedule updates clear them. -/
theorem fail_stale_frame_witness :
    (failedStaleRow2.claimed_at = (mkRunningJob 2 5 3 3).claimed_at ∧
      failedStaleRow2.claimed_by = (mkRunningJob 2 5 3 3).claimed_by ∧
      failedStaleRow2.heartbeat_at = (mkRunningJob 2 5 3 3).heartbeat_at ∧
      failedStaleRow2.scheduled_at = (mkRunningJob 2 5 3 3).scheduled_at ∧
      failedStaleRow2.retry_count = (mkRunningJob 2 5 3 3).retry_count ∧
      (failedStaleRow2 = mkRunningJob 2 5 3 3 ∨
        failedStaleRow2 = { mkRunningJob 2 5 3 3 with
          status := Status.failed,
          last_error := some "worker timeout: max retries exceeded",
          updated_at := 1000 })) ∧
    ((rescheduleStaleRow 1000 [1] (mkRunningJob 1 5 0 3)).claimed_at = none ∧
      (rescheduleStaleRow 1000 [1] (mkRunningJob 1 5 0 3)).claimed_by = none ∧
      (rescheduleStaleRow 1000 [1] (mkRunningJob 1 5 0 3)).heartbeat_at = none ∧
      (rescheduleRow 1000 (mkRunningJob 1 5 0 3).id "e" 7 (mkRunningJob 1 5 0 3)).claimed_at = none ∧
      (rescheduleRow 1000 (mkRunningJob 1 5 0 3).id "e" 7 (mkRunningJob 1 5 0 3)).claimed_by = none ∧
      (rescheduleRow 1000 (mkRunningJob 1 5 0 3).id "e" 7 (mkRunningJob 1 5 0 3)).heartbeat_at = none) :=
  ⟨(fail_stale_frame reaperStore 1000 100 100 1).1 (mkRunningJob 2 5 3 3)
      failedStaleRow2 (by decide) (by decide),
   (fail_stale_frame reaperStore 1000 100 100 1).2 (mkRunningJob 1 5 0 3) [1] "e" 7
      (by decide)⟩

/-! ### C2: Claim -/

theorem claimRow_id (now : Time) (w : String) (ids : List JobId) (j : Job) :
    (claimRow now w ids j).id = j.id := by
  unfold claimRow; split <;> rfl

theorem claim_jobs_map_id (s : Store) (now : Time) (w : String) (limit : Nat) :
    (Claim s now w limit).1.jobs.map Job.id = s.jobs.map Job.id := by
  show (s.jobs.map (claimRow now w (claimSelected s now limit))).map Job.id
      = s.jobs.map Job.id
  rw [List.map_map]
  exact List.map_congr_left (fun j _ => claimRow_id now w _ j)

/-- C2: Claim(worker, limit) returns at most limit jobs; each returned job
came from a row that was pending with scheduled_at <= now, and now carries
status running, claimed_by = worker, claimed_at = heartbeat_at = now with its
scheduled_at and retry_count untouched; the selection prefers the earliest
scheduled_at (no selected job fires later than a due job left behind); rows
not selected are unchanged. -/
theorem claim_batch_spec (s : Store) (now : Time) (w : String) (limit : Nat)
    (hwf : s.wf) :
    (Claim s now w limit).2.length ≤ limit ∧
    (∀ j2 ∈ (Claim s now w limit).2,
      j2.status = Status.running ∧ j2.claimed_by = some w ∧
      j2.claimed_at = some now ∧ j2.heartbeat_at = some now ∧
      ∃ j ∈ s.jobs, j.id = j2.id ∧ j.status = Status.pending ∧
        j.scheduled_at ≤ now ∧ j2.scheduled_at = j.scheduled_at ∧
        j2.retry_count = j.retry_count) ∧
    (∀ j2 ∈ (Claim s now w limit).2, ∀ k ∈ s.jobs,
      isDue now k = true → k.id ∉ claimSelected s now limit →
      j2.scheduled_at ≤ k.scheduled_at) ∧
    (∀ j ∈ s.jobs, j.id ∉ claimSelected s now limit →
      j ∈ (Claim s now w limit).1.jobs) := by
  have hrow : ∀ j : Job, j.id ∈ claimSelected s now limit →
      claimRow now w (claimSelected s now limit) j =
        { j with status := Status.running, claimed_at := some now,
                 claimed_by := some w, heartbeat_at := some now, updated_at := now } := by
    intro j hj
    unfold claimRow
    rw [if_pos hj]
  have hmem2 : ∀ j2 ∈ (Claim s now w limit).2,
      ∃ j ∈ s.jobs, j.id ∈ claimSelected s now limit ∧
        j2 = claimRow now w (claimSelected s now limit) j := by
    intro j2 hj2
    have hj2' : j2 ∈ (s.jobs.map (claimRow now w (claimSelected s now limit))) ∧
        decide (j2.id ∈ claimSelected s now limit) = true := by
      simpa [Claim] using List.mem_filter.1 hj2
    obtain ⟨j, hj, hjeq⟩ := List.mem_map.1 hj2'.1
    refine ⟨j, hj, ?_, hjeq.symm⟩
    have : j2.id ∈ claimSelected s now limit := by
      simpa using hj2'.2
    rwa [← hjeq, claimRow_id] at this
  have hpre : ∀ j ∈ s.jobs, j.id ∈ claimSelected s now limit →
      j.status = Status.pending ∧ j.scheduled_at ≤ now := by
    intro j hj hjin
    obtain ⟨a, ha, haid, hap⟩ := mem_of_selected (by simpa [claimSelected] using hjin)
    have : a = j := row_eq_of_id_eq hwf ha hj haid
    subst this
    simpa [isDue] using hap
  refine ⟨?_, ?_, ?_, ?_⟩
  · have hids : (claimSelected s now limit).length ≤ limit := by
      have := selected_length Job.id (p := isDue now) (r := claimLE) s.jobs limit
      simp only [claimSelected]
      omega
    have hupd : ((Claim s now w limit).1.jobs.map Job.id).Nodup := by
      rw [claim_jobs_map_id]; exact hwf
    have hsub : List.Sublist ((Claim s now w limit).2.map Job.id)
        ((Claim s now w limit).1.jobs.map Job.id) :=
      (List.filter_sublist (Claim s now w limit).1.jobs).map Job.id
    have hnd : ((Claim s now w limit).2.map Job.id).Nodup := hsub.nodup hupd
    have hss : ((Claim s now w limit).2.map Job.id) ⊆ claimSelected s now limit := by
      intro x hx
      obtain ⟨j2, hj2, rfl⟩ := List.mem_map.1 hx
      obtain ⟨j, _, hjin, hjeq⟩ := hmem2 j2 hj2
      rw [hjeq, claimRow_id]
      exact hjin
    have := (hnd.subperm hss).length_le
    rw [List.length_map] at this
    omega
  · intro j2 hj2
    obtain ⟨j, hj, hjin, hjeq⟩ := hmem2 j2 hj2
    obtain ⟨hp, hd⟩ := hpre j hj hjin
    rw [hjeq, hrow j hjin]
    exact ⟨rfl, rfl, rfl, rfl, j, hj, rfl, hp, hd, rfl, rfl⟩
  · intro j2 hj2 k hk hkd hkn
    obtain ⟨j, hj, hjin, hjeq⟩ := hmem2 j2 hj2
    have hjsched : j2.scheduled_at = j.scheduled_at := by
      rw [hjeq, hrow j hjin]
    have hjtake : j ∈ ((s.jobs.filter (isDue now)).insertionSort claimLE).take limit := by
      have hjin2 : j.id ∈ (((s.jobs.filter (isDue now)).insertionSort claimLE).take limit).map
          Job.id := hjin
      obtain ⟨a, hatake, haid⟩ := List.mem_map.1 hjin2
      have haL : a ∈ (s.jobs.filter (isDue now)).insertionSort claimLE :=
        List.mem_of_mem_take hatake
      have has : a ∈ s.jobs :=
        (List.mem_filter.1 ((List.mem_insertionSort claimLE).1 haL)).1
      have : a = j := row_eq_of_id_eq hwf has hj haid
      rwa [this] at hatake
    have hkL : k ∈ (s.jobs.filter (isDue now)).insertionSort claimLE :=
      (List.mem_insertionSort claimLE).2 (List.mem_filter.2 ⟨hk, hkd⟩)
    have hkdrop : k ∈ ((s.jobs.filter (isDue now)).insertionSort claimLE).drop limit := by
      rcases (List.mem_append.1
          ((List.take_append_drop limit
            ((s.jobs.filter (isDue now)).insertionSort claimLE)).symm ▸ hkL)) with h | h
      · exact absurd (List.mem_map_of_mem Job.id h) (by simpa [claimSelected] using hkn)
      · exact h
    have hsorted : ((s.jobs.filter (isDue now)).insertionSort claimLE).Sorted claimLE :=
      List.sorted_insertionSort claimLE _
    have := hsorted.rel_of_mem_take_of_mem_drop hjtake hkdrop
    rw [hjsched]
    exact this
  · intro j hj hjn
    refine mem_map_of_fix hj ?_
    unfold claimRow
    rw [if_neg hjn]

/-- C2 witnessed on a store with one due pending job, one future pending job
and one completed job: the batch is the single due job, claimed. -/
theorem claim_batch_spec_witness :
    (Claim claimStore 100 "w1" 2).2.length ≤ 2 ∧
    (Claim claimStore 100 "w1" 2).2 =
      [{ mkJob 1 Status.pending 10 0 3 with
          status := Status.running, claimed_at := some 100,
          claimed_by := some "w1", heartbeat_at := some 100, updated_at := 100 }] ∧
    mkJob 2 Status.pending 500 0 3 ∈ (Claim claimStore 100 "w1" 2).1.jobs ∧
    mkJob 3 Status.completed 0 0 3 ∈ (Claim claimStore 100 "w1" 2).1.jobs :=
  ⟨(claim_batch_spec claimStore 100 "w1" 2 (by decide)).1,
   by decide,
   (claim_batch_spec claimStore 100 "w1" 2 (by decide)).2.2.2
     (mkJob 2 Status.pending 500 0 3) (by decide) (by decide),
   (claim_batch_spec claimStore 100 "w1" 2 (by decide)).2.2.2
     (mkJob 3 Status.completed 0 0 3) (by decide) (by decide)⟩

/-! ### C6: reaper bulk updates -/

theorem isStaleRetryable_iff (cutoff : Time) (j : Job) :
    isStaleRetryable cutoff j = true ↔
      j.status = Status.running ∧
        (∃ hb, j.heartbeat_at = some hb ∧ hb < cutoff) ∧
        j.retry_count < j.max_retries := by
  unfold isStaleRetryable
  cases hhb : j.heartbeat_at with
  | none => simp [hhb]
  | some hb => simp [hhb, and_assoc]

theorem isStaleExhausted_iff (cutoff : Time) (j : Job) :
    isStaleExhausted cutoff j = true ↔
      j.status = Status.running ∧
        (∃ hb, j.heartbeat_at = some hb ∧ hb < cutoff) ∧
        j.max_retries ≤ j.retry_count := by
  unfold isStaleExhausted
  cases hhb : j.heartbeat_at with
  | none => simp [hhb]
  | some hb => simp [hhb, and_assoc]

/-- C6: RescheduleStale affects at most limit rows, all of them running with a
heartbeat older than the cutoff and retries remaining, and re-queues each —
status pending, retry_count incremented, last_error worker timeout, claim and
heartbeat fields cleared, scheduled_at untouched, retry_count still at most
max_retries; FailStale affects at most limit rows, all running, stale and
exhausted, terminally failing each with the max-retries message; both return
the number of rows affected (the limit-capped count of eligible rows) and
leave every unselected row unchanged. -/
theorem stale_reap_spec (s : Store) (now cutoff : Time) (limit : Nat)
    (hwf : s.wf) :
    (RescheduleStale s now cutoff limit).2
        = min limit ((s.jobs.filter (isStaleRetryable cutoff)).length) ∧
    (FailStale s now cutoff limit).2
        = min limit ((s.jobs.filter (isStaleExhausted cutoff)).length) ∧
    (RescheduleStale s now cutoff limit).2 ≤ limit ∧
    (FailStale s now cutoff limit).2 ≤ limit ∧
    (∀ j ∈ s.jobs, j.id ∈ rescheduleStaleSelected s cutoff limit →
      (j.status = Status.running ∧
        (∃ hb, j.heartbeat_at = some hb ∧ hb < cutoff) ∧
        j.retry_count < j.max_retries) ∧
      { j with status := Status.pending, retry_count := j.retry_count + 1,
               last_error := some "worker timeout",
               claimed_at := none, claimed_by := none, heartbeat_at := none,
               updated_at := now } ∈ (RescheduleStale s now cutoff limit).1.jobs ∧
      j.retry_count + 1 ≤ j.max_retries) ∧
    (∀ j ∈ s.jobs, j.id ∉ rescheduleStaleSelected s cutoff limit →
      j ∈ (RescheduleStale s now cutoff limit).1.jobs) ∧
    (∀ j ∈ s.jobs, j.id ∈ failStaleSelected s cutoff limit →
      (j.status = Status.running ∧
        (∃ hb, j.heartbeat_at = some hb ∧ hb < cutoff) ∧
        j.max_retries ≤ j.retry_count) ∧
      { j with status := Status.failed,
               last_error := some "worker timeout: max retries exceeded",
               updated_at := now } ∈ (FailStale s now cutoff limit).1.jobs) ∧
    (∀ j ∈ s.jobs, j.id ∉ failStaleSelected s cutoff limit →
      j ∈ (FailStale s now cutoff limit).1.jobs) := by
  have hlen1 : (RescheduleStale s now cutoff limit).2
      = min limit ((s.jobs.filter (isStaleRetryable cutoff)).length) := by
    show (rescheduleStaleSelected s cutoff limit).length = _
    exact selected_length Job.id s.jobs limit
  have hlen2 : (FailStale s now cutoff limit).2
      = min limit ((s.jobs.filter (isStaleExhausted cutoff)).length) := by
    show (failStaleSelected s cutoff limit).length = _
    exact selected_length Job.id s.jobs limit
  refine ⟨hlen1, hlen2, ?_, ?_, ?_, ?_, ?_, ?_⟩
  · rw [hlen1]; exact min_le_left _ _
  · rw [hlen2]; exact min_le_left _ _
  · intro j hj hjin
    have hprop : isStaleRetryable cutoff j = true := by
      obtain ⟨a, ha, haid, hap⟩ :=
        mem_of_selected (show j.id ∈ (((s.jobs.filter (isStaleRetryable cutoff)).insertionSort
          hbLE).take limit).map Job.id from hjin)
      rwa [row_eq_of_id_eq hwf ha hj haid] at hap
    refine ⟨(isStaleRetryable_iff cutoff j).1 hprop, ?_, ?_⟩
    · have := List.mem_map_of_mem (rescheduleStaleRow now
        (rescheduleStaleSelected s cutoff limit)) hj
      rwa [show rescheduleStaleRow now (rescheduleStaleSelected s cutoff limit) j
          = { j with status := Status.pending, retry_count := j.retry_count + 1,
                     last_error := some "worker timeout",
                     claimed_at := none, claimed_by := none, heartbeat_at := none,
                     updated_at := now } by unfold rescheduleStaleRow; rw [if_pos hjin]]
        at this
    · have := ((isStaleRetryable_iff cutoff j).1 hprop).2.2
      omega
  · intro j hj hjn
    refine mem_map_of_fix hj ?_
    unfold rescheduleStaleRow
    rw [if_neg hjn]
  · intro j hj hjin
    have hprop : isStaleExhausted cutoff j = true := by
      obtain ⟨a, ha, haid, hap⟩ :=
        mem_of_selected (show j.id ∈ (((s.jobs.filter (isStaleExhausted cutoff)).insertionSort
          hbLE).take limit).map Job.id from hjin)
      rwa [row_eq_of_id_eq hwf ha hj haid] at hap
    refine ⟨(isStaleExhausted_iff cutoff j).1 hprop, ?_⟩
    have := List.mem_map_of_mem (failStaleRow now (failStaleSelected s cutoff limit)) hj
    rwa [show failStaleRow now (failStaleSelected s cutoff limit) j
        = { j with status := Status.failed,
                   last_error := some "worker timeout: max retries exceeded",
                   updated_at := now } by unfold failStaleRow; rw [if_pos hjin]] at this
  · intro j hj hjn
    refine mem_map_of_fix hj ?_
    unfold failStaleRow
    rw [if_neg hjn]

/-- C6 witnessed on the reaper store (cutoff 100): the stale retryable job is
re-queued with its counter bumped, the stale exhausted job is failed, and the
fresh running job is untouched by both. -/
theorem stale_reap_spec_witness :
    (RescheduleStale reaperStore 1000 100 100).2 ≤ 100 ∧
    (FailStale reaperStore 1000 100 100).2 ≤ 100 ∧
    { mkRunningJob 1 5 0 3 with
      status := Status.pending, retry_count := (0:Int) + 1,
      last_error := some "worker timeout",
      claimed_at := none, claimed_by := none, heartbeat_at := none,
      updated_at := 1000 } ∈ (RescheduleStale reaperStore 1000 100 100).1.jobs ∧
    { mkRunningJob 2 5 3 3 with
      status := Status.failed,
      last_error := some "worker timeout: max retries exceeded",
      updated_at := 1000 } ∈ (FailStale reaperStore 1000 100 100).1.jobs ∧
    mkRunningJob 3 900 0 3 ∈ (RescheduleStale reaperStore 1000 100 100).1.jobs ∧
    mkRunningJob 3 900 0 3 ∈ (FailStale reaperStore 1000 100 100).1.jobs := by
  have h := stale_reap_spec reaperStore 1000 100 100 (by decide)
  exact ⟨h.2.2.1, h.2.2.2.1,
    (h.2.2.2.2.1 (mkRunningJob 1 5 0 3) (by decide) (by decide)).2.1,
    (h.2.2.2.2.2.2.1 (mkRunningJob 2 5 3 3) (by decide) (by decide)).2,
    h.2.2.2.2.2.1 (mkRunningJob 3 900 0 3) (by decide) (by decide),
    h.2.2.2.2.2.2.2 (mkRunningJob 3 900 0 3) (by decide) (by decide)⟩

/-! ### C9: CancelJob -/

theorem cancel_eq_of_find_none (s : Store) (now : Time) (jobID : JobId) (uid : String)
    (hf : s.jobs.find? (fun j => decide (j.id = jobID) && decide (j.user_id = uid)) = none) :
    Cancel s now jobID uid = Except.error CancelError.jobNotFound := by
  unfold Cancel
  rw [hf]

theorem cancel_eq_of_find_some (s : Store) (now : Time) (jobID : JobId) (uid : String)
    (a : Job)
    (hf : s.jobs.find? (fun j => decide (j.id = jobID) && decide (j.user_id = uid)) = some a) :
    Cancel s now jobID uid =
      (if a.status = Status.pending then
        Except.ok { jobs := s.jobs.map (fun k =>
          if k.id = jobID ∧ k.user_id = uid ∧ k.status = Status.pending then
            { k with status := Status.cancelled, updated_at := now }
          else k) }
      else Except.error CancelError.jobNotCancellable) := by
  unfold Cancel
  rw [hf]

/-- C9: CancelJob succeeds exactly when a job with this id exists, is owned by
the caller, and is pending; on success that job becomes cancelled and every
other row is untouched; an owned job in any other status yields
JobNotCancellable, which the handler maps to 409; an id with no owned row
yields JobNotFound, mapped to 404. -/
theorem cancel_spec (s : Store) (now : Time) (jobID : JobId) (uid : String)
    (hwf : s.wf) :
    ((∃ t, Cancel s now jobID uid = Except.ok t) ↔
      (∃ j ∈ s.jobs, j.id = jobID ∧ j.user_id = uid ∧ j.status = Status.pending)) ∧
    (∀ t, Cancel s now jobID uid = Except.ok t →
      ∀ j ∈ s.jobs, j.id = jobID → j.user_id = uid →
        j.status = Status.pending ∧
        { j with status := Status.cancelled, updated_at := now } ∈ t.jobs) ∧
    (∀ t, Cancel s now jobID uid = Except.ok t →
      ∀ j ∈ s.jobs, ¬ (j.id = jobID ∧ j.user_id = uid ∧ j.status = Status.pending) →
        j ∈ t.jobs) ∧
    ((∃ j ∈ s.jobs, j.id = jobID ∧ j.user_id = uid ∧ j.status ≠ Status.pending) →
      Cancel s now jobID uid = Except.error CancelError.jobNotCancellable ∧
      cancelHandlerCode (Cancel s now jobID uid) = 409) ∧
    ((∀ j ∈ s.jobs, ¬ (j.id = jobID ∧ j.user_id = uid)) →
      Cancel s now jobID uid = Except.error CancelError.jobNotFound ∧
      cancelHandlerCode (Cancel s now jobID uid) = 404) := by
  have hfind : ∀ a : Job,
      s.jobs.find? (fun j => decide (j.id = jobID) && decide (j.user_id = uid)) = some a →
      a ∈ s.jobs ∧ a.id = jobID ∧ a.user_id = uid := by
    intro a ha
    refine ⟨List.mem_of_find?_eq_some ha, ?_⟩
    have := List.find?_some ha
    simpa using this
  refine ⟨?_, ?_, ?_, ?_, ?_⟩
  · constructor
    · rintro ⟨t, ht⟩
      cases hf : s.jobs.find?
          (fun j => decide (j.id = jobID) && decide (j.user_id = uid)) with
      | none => rw [cancel_eq_of_find_none s now jobID uid hf] at ht; exact absurd ht (by simp)
      | some a =>
          rw [cancel_eq_of_find_some s now jobID uid a hf] at ht
          obtain ⟨ha, haid, hau⟩ := hfind a hf
          by_cases hp : a.status = Status.pending
          · exact ⟨a, ha, haid, hau, hp⟩
          · rw [if_neg hp] at ht; exact absurd ht (by simp)
    · rintro ⟨j, hj, hid, huid, hp⟩
      cases hf : s.jobs.find?
          (fun j => decide (j.id = jobID) && decide (j.user_id = uid)) with
      | none =>
          have := List.find?_eq_none.1 hf j hj
          simp [hid, huid] at this
      | some a =>
          obtain ⟨ha, haid, hau2⟩ := hfind a hf
          have haj : a = j := row_eq_of_id_eq hwf ha hj (haid.trans hid.symm)
          subst haj
          rw [cancel_eq_of_find_some s now jobID uid a hf, if_pos hp]
          exact ⟨_, rfl⟩
  · intro t ht j hj hid huid
    cases hf : s.jobs.find?
        (fun j => decide (j.id = jobID) && decide (j.user_id = uid)) with
    | none => rw [cancel_eq_of_find_none s now jobID uid hf] at ht; exact absurd ht (by simp)
    | some a =>
        rw [cancel_eq_of_find_some s now jobID uid a hf] at ht
        obtain ⟨ha, haid, hau2⟩ := hfind a hf
        have haj : a = j := row_eq_of_id_eq hwf ha hj (haid.trans hid.symm)
        subst haj
        by_cases hp : a.status = Status.pending
        · rw [if_pos hp] at ht
          refine ⟨hp, ?_⟩
          have ht2 : t.jobs = s.jobs.map (fun k =>
              if k.id = jobID ∧ k.user_id = uid ∧ k.status = Status.pending then
                { k with status := Status.cancelled, updated_at := now }
              else k) := by
            cases ht3 : t
            simp_all
          rw [ht2]
          have := List.mem_map_of_mem (fun k =>
            if k.id = jobID ∧ k.user_id = uid ∧ k.status = Status.pending then
              { k with status := Status.cancelled, updated_at := now }
            else k) ha
          simpa [hid, huid, hp] using this
        · rw [if_neg hp] at ht; exact absurd ht (by simp)
  · intro t ht j hj hnm
    cases hf : s.jobs.find?
        (fun j => decide (j.id = jobID) && decide (j.user_id = uid)) with
    | none => rw [cancel_eq_of_find_none s now jobID uid hf] at ht; exact absurd ht (by simp)
    | some a =>
        rw [cancel_eq_of_find_some s now jobID uid a hf] at ht
        by_cases hp : a.status = Status.pending
        · rw [if_pos hp] at ht
          have ht2 : t.jobs = s.jobs.map (fun k =>
              if k.id = jobID ∧ k.user_id = uid ∧ k.status = Status.pending then
                { k with status := Status.cancelled, updated_at := now }
              else k) := by
            cases ht3 : t
            simp_all
          rw [ht2]
          exact mem_map_of_fix hj (by rw [if_neg hnm])
        · rw [if_neg hp] at ht; exact absurd ht (by simp)
  · rintro ⟨j, hj, hid, huid, hnp⟩
    have hcancel : Cancel s now jobID uid = Except.error CancelError.jobNotCancellable := by
      cases hf : s.jobs.find?
          (fun j => decide (j.id = jobID) && decide (j.user_id = uid)) with
      | none =>
          have := List.find?_eq_none.1 hf j hj
          simp [hid, huid] at this
      | some a =>
          obtain ⟨ha, haid, hau2⟩ := hfind a hf
          have haj : a = j := row_eq_of_id_eq hwf ha hj (haid.trans hid.symm)
          subst haj
          rw [cancel_eq_of_find_some s now jobID uid a hf, if_neg hnp]
    exact ⟨hcancel, by rw [hcancel]; rfl⟩
  · intro hnone
    have hcancel : Cancel s now jobID uid = Except.error CancelError.jobNotFound := by
      cases hf : s.jobs.find?
          (fun j => decide (j.id = jobID) && decide (j.user_id = uid)) with
      | none => exact cancel_eq_of_find_none s now jobID uid hf
      | some a =>
          obtain ⟨ha, haid, hau⟩ := hfind a hf
          exact absurd ⟨haid, hau⟩ (hnone a ha)
    exact ⟨hcancel, by rw [hcancel]; rfl⟩

/-- C9 witnessed on the claim store: cancelling the pending job succeeds,
cancelling the completed job is a 409 conflict, and an unknown id is a 404. -/
theorem cancel_spec_witness :
    (∃ t, Cancel claimStore 50 1 "u" = Except.ok t) ∧
    cancelHandlerCode (Cancel claimStore 50 3 "u") = 409 ∧
    cancelHandlerCode (Cancel claimStore 50 99 "u") = 404 := by
  refine ⟨?_, ?_, ?_⟩
  · exact (cancel_spec claimStore 50 1 "u" (by decide)).1.2 (by decide)
  · exact ((cancel_spec claimStore 50 3 "u" (by decide)).2.2.2.1 (by decide)).2
  · exact ((cancel_spec claimStore 50 99 "u" (by decide)).2.2.2.2 (by decide)).2

/-! ### C3: ListJobs pagination -/

/-- C3: the store holds jobs 1, 2, 3 of user u at fire times 10, 20, 30, so
the full (scheduled_at DESC, id DESC) order is [3, 2, 1].  With limit 1 the
first page is [3]; the claim (and the spec's cursor description) say the
cursor encodes the last returned item (30, 3) and that the next page is
exactly [2].  The code takes the cursor from jobs[limit] — the first row
beyond the returned page, here job 2 at (20, 2) — and the follow-up call
filters (scheduled_at, id) < (20, 2), returning [1]: job 2 is never returned
on any page.  This evaluation exhibits the skipped job. -/
theorem list_jobs_pagination_skips_cex :
    (ListJobs listStore "u" none none 1).jobs.map Job.id = [3] ∧
    (ListJobs listStore "u" none none 1).nextCursor = some (20, 2) ∧
    ¬ (ListJobs listStore "u" none none 1).nextCursor = some (30, 3) ∧
    (ListJobs listStore "u" none (some (20, 2)) 1).jobs.map Job.id = [1] ∧
    (ListJobs listStore "u" none (some (20, 2)) 1).nextCursor = none := by
  decide

/-! ### C7: ClaimAndFire -/

theorem foldl_fire_jobs (now : Time) (cn : Schedule → Time) :
    ∀ (sel : List Schedule) (st : FireState) (j : Job),
      j ∈ (sel.foldl (fireOne now cn) st).jobs →
      j ∈ st.jobs ∨ ∃ s ∈ sel,
        j.idempotency_key = fireKey s ∧ j.schedule_id = some s.id ∧
        j.status = Status.pending ∧ j.scheduled_at = now := by
  intro sel
  induction sel with
  | nil => intro st j hj; exact Or.inl hj
  | cons s0 rest ih =>
      intro st j hj
      rcases ih (fireOne now cn st s0) j hj with h | ⟨s, hs, hkey⟩
      · by_cases hdup : hasDupKey st.jobs s0.user_id (fireKey s0) = true
        · left
          simpa [fireOne, hdup] using h
        · have h2 : j ∈ st.jobs ++ [fireJob now st.nextId s0] := by
            simpa [fireOne, hdup] using h
          rcases List.mem_append.1 h2 with h3 | h3
          · exact Or.inl h3
          · right
            refine ⟨s0, List.mem_cons_self s0 rest, ?_⟩
            have : j = fireJob now st.nextId s0 := by simpa using h3
            subst this
            exact ⟨rfl, rfl, rfl, rfl⟩
      · exact Or.inr ⟨s, List.mem_cons_of_mem s0 hs, hkey⟩

theorem foldl_fire_sched_skip (now : Time) (cn : Schedule → Time) :
    ∀ (sel : List Schedule) (st : FireState) (k : Nat) (t : Schedule),
      st.schedules[k]? = some t → (∀ s ∈ sel, t.id ≠ s.id) →
      (sel.foldl (fireOne now cn) st).schedules[k]? = some t := by
  intro sel
  induction sel with
  | nil => intro st k t ht _; exact ht
  | cons s0 rest ih =>
      intro st k t ht hne
      refine ih (fireOne now cn st s0) k t ?_ (fun s hs => hne s (List.mem_cons_of_mem s0 hs))
      show (st.schedules.map _)[k]? = some t
      rw [List.getElem?_map, ht]
      simp [hne s0 (List.mem_cons_self s0 rest)]

theorem foldl_fire_sched_update (now : Time) (cn : Schedule → Time) :
    ∀ (sel : List Schedule), (sel.map Schedule.id).Nodup →
      ∀ s ∈ sel, ∀ (st : FireState) (k : Nat) (t : Schedule),
        st.schedules[k]? = some t → t.id = s.id →
        (sel.foldl (fireOne now cn) st).schedules[k]? =
          some { t with next_run_at := cn s, last_run_at := some now,
                        updated_at := now } := by
  intro sel
  induction sel with
  | nil => intro _ s hs; exact absurd hs (List.not_mem_nil s)
  | cons s0 rest ih =>
      intro hnd s hs st k t ht hid
      have hnd2 : s0.id ∉ rest.map Schedule.id ∧ (rest.map Schedule.id).Nodup := by
        simpa using hnd
      rcases List.mem_cons.1 hs with rfl | hs2
      · have ht2 : (fireOne now cn st s).schedules[k]? =
            some { t with next_run_at := cn s, last_run_at := some now,
                          updated_at := now } := by
          show (st.schedules.map _)[k]? = _
          rw [List.getElem?_map, ht]
          simp [hid]
        refine foldl_fire_sched_skip now cn rest (fireOne now cn st s) k _ ht2 ?_
        intro s2 hs2
        show t.id ≠ s2.id
        rw [hid]
        intro heq
        exact hnd2.1 (heq ▸ List.mem_map_of_mem Schedule.id hs2)
      · have hne : t.id ≠ s0.id := by
          rw [hid]
          intro heq
          exact hnd2.1 (heq ▸ List.mem_map_of_mem Schedule.id hs2)
        have ht2 : (fireOne now cn st s0).schedules[k]? = some t := by
          show (st.schedules.map _)[k]? = some t
          rw [List.getElem?_map, ht]
          simp [hne]
        exact ih hnd2.2 s hs2 (fireOne now cn st s0) k t ht2 hid

theorem mem_dueSchedules {st : FireState} {now : Time} {limit : Nat} {s : Schedule}
    (hs : s ∈ dueSchedules st now limit) :
    s ∈ st.schedules ∧ isDueSchedule now s = true := by
  have h1 : s ∈ (st.schedules.filter (isDueSchedule now)).insertionSort schedLE :=
    List.mem_of_mem_take hs
  have h2 := (List.mem_insertionSort schedLE).1 h1
  exact ⟨(List.mem_filter.1 h2).1, (List.mem_filter.1 h2).2⟩

/-- C7: every job inserted by one ClaimAndFire transaction carries
idempotency_key = "sched:" ++ schedule id ++ ":" ++ unix seconds of the
schedule's next_run_at as it stood when the schedule was claimed (before the
advance), together with schedule_id, pending status and scheduled_at = now;
and every claimed schedule's row is advanced to computeNext(claimed row) with
last_run_at stamped — a fact that does not depend on whether the job insert
hit the unique-constraint violation, so the schedule progresses even when the
fire is de-duplicated. -/
theorem claim_and_fire_spec (st : FireState) (now : Time) (limit : Nat)
    (cn : Schedule → Time) (hwf : (st.schedules.map Schedule.id).Nodup) :
    (∀ j ∈ (ClaimAndFire st now limit cn).jobs, j ∈ st.jobs ∨
      ∃ s ∈ dueSchedules st now limit,
        j.idempotency_key
          = "sched:" ++ s.id ++ ":" ++ toString (unixSeconds s.next_run_at) ∧
        j.schedule_id = some s.id ∧ j.status = Status.pending ∧
        j.scheduled_at = now ∧ s.next_run_at ≤ now ∧ s.paused = false) ∧
    (∀ s ∈ dueSchedules st now limit, ∀ (k : Nat) (t : Schedule),
      st.schedules[k]? = some t → t.id = s.id →
      (ClaimAndFire st now limit cn).schedules[k]? =
        some { t with next_run_at := cn s, last_run_at := some now,
                      updated_at := now }) := by
  have hseldup : ((dueSchedules st now limit).map Schedule.id).Nodup := by
    have := selected_nodup (f := Schedule.id) (p := isDueSchedule now)
      (r := schedLE) (l := st.schedules) hwf limit
    exact this
  constructor
  · intro j hj
    rcases foldl_fire_jobs now cn (dueSchedules st now limit) st j hj with h | ⟨s, hs, h1, h2, h3, h4⟩
    · exact Or.inl h
    · right
      refine ⟨s, hs, h1, h2, h3, h4, ?_, ?_⟩
      · have := (mem_dueSchedules hs).2
        simp [isDueSchedule] at this
        exact this.1
      · have := (mem_dueSchedules hs).2
        simp [isDueSchedule] at this
        exact this.2
  · intro s hs k t ht hid
    exact foldl_fire_sched_update now cn (dueSchedules st now limit) hseldup s hs st k t ht hid

/-- C7 witnessed on a state where the job of the schedule's current tick
already exists: the insert is skipped (jobs unchanged) yet next_run_at is
advanced and last_run_at stamped. -/
theorem claim_and_fire_spec_witness :
    (ClaimAndFire dupFireState 10000000000 100 (constNext 1000000000000)).schedules[0]? =
      some { sched1 with next_run_at := constNext 1000000000000 sched1,
                         last_run_at := some 10000000000, updated_at := 10000000000 } ∧
    (ClaimAndFire dupFireState 10000000000 100 (constNext 1000000000000)).jobs
      = dupFireState.jobs ∧
    hasDupKey dupFireState.jobs sched1.user_id (fireKey sched1) = true :=
  ⟨(claim_and_fire_spec dupFireState 10000000000 100 (constNext 1000000000000)
      (by decide)).2 sched1 (by decide) 0 sched1 (by decide) rfl,
   by decide, by decide⟩

end JobSched
